import Mathlib

/-!
Verification of the rich-text edit-decision engine in
`packages/block-editor/src/components/rich-text/index.js`.

The engine's own logic (`addActiveFormats`, `splitValue`, the keydown
handler, the paste classifier, the prefix-transform input rule) is
embedded directly from the source.  External collaborators (the
`@wordpress/rich-text` value operations, the clipboard parser, the block
transform registry, URL/shortcode testers, host callbacks) are either
modelled from the spec's interface contracts or passed in as explicit
host parameters, exactly as the source receives them as imports/props.
-/

namespace BlockEditor

/-- A format descriptor (format name + attributes), opaque to the engine. -/
abbrev Format := String

/-- The rich-text value: characters, a format stack per character, and a
selection range.  Mirrors the `@wordpress/rich-text` record consumed by
the source (`{ text, formats, start, end }`). -/
structure Value where
  text : List Char
  formats : List (List Format)
  start : Nat
  «end» : Nat
deriving Repr, DecidableEq

/-- Modelled from the spec: the reserved multiline-separator code point
(`__UNSTABLE_LINE_SEPARATOR`, U+2028), distinct from newline. -/
def LINE_SEPARATOR : Char := Char.ofNat 0x2028

/-- Modelled from the spec: `isEmpty(v)` is true iff `text` length is 0
(the `@wordpress/rich-text` import is not under `src/`). -/
def isEmpty (v : Value) : Bool := v.text.isEmpty

/-- Modelled from the spec: `isCollapsed(v)` is true iff `start == end`. -/
def isCollapsed (v : Value) : Bool := v.start == v.«end»

/-- Modelled from the spec: `isEmptyLine(v)` — restricting to the
multiline segment containing the caret (bounded by separator characters
or text edges), that segment is empty. -/
def isEmptyLine (v : Value) : Bool :=
  (v.start == 0 || v.text.get? (v.start - 1) == some LINE_SEPARATOR) &&
  (v.start == v.text.length || v.text.get? v.start == some LINE_SEPARATOR)

/-- Modelled from the spec: `create({ text })` builds an unformatted
Value from plain text (formats empty per character). -/
def createFromText (s : String) : Value :=
  { text := s.data, formats := s.data.map (fun _ => []), start := 0, «end» := 0 }

/-- Modelled from the spec: `split(v)` cuts at `start`/`end`; a
non-collapsed selected range is dropped (included in neither half). -/
def split (v : Value) : Value × Value :=
  ({ text := v.text.take v.start, formats := v.formats.take v.start,
     start := v.start, «end» := v.start },
   { text := v.text.drop v.«end», formats := v.formats.drop v.«end»,
     start := 0, «end» := 0 })

/-- Modelled from the spec: `insert(v, fragment)` replaces the selected
range by the fragment, caret moved to the end of the inserted content. -/
def insert (v : Value) (frag : Value) : Value :=
  { text := v.text.take v.start ++ frag.text ++ v.text.drop v.«end»,
    formats := v.formats.take v.start ++ frag.formats ++ v.formats.drop v.«end»,
    start := v.start + frag.text.length,
    «end» := v.start + frag.text.length }

/-- Modelled from the spec: `__unstableInsertLineSeparator` inserts the
multiline-separator character at the caret. -/
def insertLineSeparator (v : Value) : Value :=
  insert v (createFromText (String.mk [LINE_SEPARATOR]))

/-- Modelled from the spec: `slice(v, from, to)` keeps the character
range `[from, to)` with formats sliced correspondingly and the selection
clamped into range. -/
def sliceV (v : Value) (f t : Nat) : Value :=
  { text := (v.text.take t).drop f, formats := (v.formats.take t).drop f,
    start := min (max v.start f) t - f,
    «end» := min (max v.«end» f) t - f }

/-- Modelled from the spec: `Serialize(Value, multilineTag) -> html` is
an external service; serialization details are opaque to every claim, so
the html payload is modelled as the raw text. -/
def toHTMLString (v : Value) (multilineTag : Option String) : String :=
  let _ := multilineTag
  String.mk v.text

/-- JavaScript `String.prototype.slice` semantics on the character list:
negative indices count from the end, indices are clamped, and an empty
result is produced when the normalized start is not before the end. -/
def jsSlice (s : List Char) (a b : Int) : List Char :=
  let len : Int := s.length
  let norm : Int → Nat := fun i =>
    (if i < 0 then max (len + i) 0 else min i len).toNat
  (s.take (norm b)).drop (norm a)

/-- The whitespace set removed by JavaScript `String.prototype.trim`. -/
def jsIsWhitespace (c : Char) : Bool :=
  c == ' ' || c == '\t' || c == '\n' || c == '\r' ||
  c == Char.ofNat 0x0B || c == Char.ofNat 0x0C ||
  c == Char.ofNat 0xA0 || c == Char.ofNat 0x2028 ||
  c == Char.ofNat 0x2029 || c == Char.ofNat 0xFEFF

/-- JavaScript `String.prototype.trim` on the character list. -/
def jsTrim (s : List Char) : List Char :=
  ((s.dropWhile jsIsWhitespace).reverse.dropWhile jsIsWhitespace).reverse

/-- `addActiveFormats(value, activeFormats)` from the source: when the
active-format list is non-empty, every character's format stack gets the
active formats spliced in front of whatever was already there.  The
JavaScript mutates the value's `formats` array in place; the embedding
returns the post-call state of that value object. -/
def addActiveFormats (value : Value) (activeFormats : List Format) : Value :=
  if activeFormats.length ≠ 0 then
    { value with formats := value.formats.map (fun fs => activeFormats ++ fs) }
  else
    value

/-- An opaque block payload handed to the host: the result of the
`onSplit` hook (html + "is the original block" flag), the result of the
`onSplitMiddle` hook, or an externally produced (pasted/parsed) block. -/
inductive Block where
  | fromSplit (html : String) (isOriginal : Bool)
  | middleBlock
  | external (payload : String)
deriving Repr, DecidableEq

/-- The host-capability and host-configuration flags the source reads
from its props: which optional callbacks are present, the multiline
mode, and paste configuration. -/
structure Caps where
  onReplace : Bool
  onSplit : Bool
  onSplitMiddle : Bool
  onSplitAtEnd : Bool
  onMerge : Bool
  onRemove : Bool
  multiline : Bool
  disableLineBreaks : Bool
  pastePlainText : Bool
  embedURLOnPaste : Bool
  multilineTag : Option String
  tagName : String
  preserveWhiteSpace : Bool
deriving Repr, DecidableEq

/-- One call made by the engine into the host or store: the source
invokes these callbacks directly; the embedding records them in call
order.  `onReplaceSig` carries the optional index/position arguments
(`none` where the JavaScript call site omits them). -/
inductive Signal where
  | onReplaceSig (blocks : List Block) (indexToSelect : Option Int)
      (initialPosition : Option Int)
  | markAutomaticSig
  | onChangeSig (v : Value)
  | onSplitAtEndSig
  | onMergeSig (forward : Bool)
  | onRemoveSig (forward : Bool)
deriving Repr, DecidableEq

/-- The data `splitValue` passes to `onReplace`. -/
structure SplitResult where
  blocks : List Block
  indexToSelect : Int
  initialPosition : Int
deriving Repr, DecidableEq

/-- The block produced for the content before the caret:
`onSplit(toHTMLString({ value: before, multilineTag }), ! isAfterOriginal)`. -/
def beforeBlock (caps : Caps) (record : Value) : Block :=
  Block.fromSplit (toHTMLString (split record).1 caps.multilineTag)
    (!(isEmpty (split record).1 && !isEmpty (split record).2))

/-- The block produced for the content after the caret:
`onSplit(toHTMLString({ value: after, multilineTag }), isAfterOriginal)`. -/
def afterBlock (caps : Caps) (record : Value) : Block :=
  Block.fromSplit (toHTMLString (split record).2 caps.multilineTag)
    (isEmpty (split record).1 && !isEmpty (split record).2)

/-- `splitValue(record, pastedBlocks)` from the source.  Returns `none`
when the host lacks `onReplace` or `onSplit` (the early return: nothing
reaches the host), otherwise the blocks list and the selection data the
source passes to `onReplace(blocks, indexToSelect, initialPosition)`. -/
def splitValue (caps : Caps) (record : Value) (pastedBlocks : List Block) :
    Option SplitResult :=
  if !caps.onReplace || !caps.onSplit then
    none
  else
    let before := (split record).1
    let after := (split record).2
    let hasPastedBlocks := !pastedBlocks.isEmpty
    -- Create a block with the content before the caret if there's no
    -- pasted blocks, or if there are pasted blocks and the value is not
    -- empty.
    let blocksBefore :=
      if !hasPastedBlocks || !isEmpty before then [beforeBlock caps record] else []
    let blocksMiddle :=
      if hasPastedBlocks then pastedBlocks
      else if caps.onSplitMiddle then [Block.middleBlock]
      else []
    -- With pasted blocks, append the after block only when non empty;
    -- otherwise append it unless there is an `onSplitMiddle` hook and
    -- the after value is empty.
    let blocksAfter :=
      if (if hasPastedBlocks then !isEmpty after
          else !caps.onSplitMiddle || !isEmpty after) then
        [afterBlock caps record]
      else []
    let lastPastedBlockIndex : Int :=
      -1 + (if !hasPastedBlocks || !isEmpty before then 1 else 0) +
        (if hasPastedBlocks then (pastedBlocks.length : Int) else 0)
    some { blocks := blocksBefore ++ blocksMiddle ++ blocksAfter,
           indexToSelect := if hasPastedBlocks then lastPastedBlockIndex else 1,
           initialPosition := if hasPastedBlocks then -1 else 0 }

/-- The signals a `splitValue(...)` call emits: nothing on the early
return, one `onReplace` call otherwise. -/
def splitSignals (caps : Caps) (record : Value) (pastedBlocks : List Block) :
    List Signal :=
  match splitValue caps record pastedBlocks with
  | none => []
  | some r =>
      [Signal.onReplaceSig r.blocks (some r.indexToSelect) (some r.initialPosition)]

/-- A registered "enter" transform from the block transform registry:
`regExp.test` on the value's text, and `transform({ content })`. -/
structure EnterTransform where
  regExpTest : String → Bool
  transform : String → Block

/-- A registered "prefix" transform: a prefix token and
`transform(content)` building a block from the sliced value. -/
structure PrefixTransform where
  prefixText : List Char
  transform : Value → Block

/-- The parse mode handed to the external clipboard parser. -/
inductive Mode where
  | AUTO
  | INLINE
  | BLOCKS
deriving Repr, DecidableEq

/-- What the external clipboard parser returns: an inline HTML string or
a list of block payloads. -/
inductive PasteContent where
  | inline (html : String)
  | blockList (blocks : List Block)

/-- Modelled from the spec: in `BLOCKS` mode `ParseClipboardContent`
produces a block list; a string result (outside that contract) is
treated as a single opaque payload. -/
def PasteContent.toBlockList : PasteContent → List Block
  | PasteContent.inline s => [Block.external s]
  | PasteContent.blockList bs => bs

/-- The external collaborators the source imports or receives as props:
the clipboard parser, `create` (HTML to Value), the file paste handler,
URL and shortcode testers, the host's value conversions, and the
transform registry already filtered by type. -/
structure Host where
  pasteHandler : String → String → Mode → String → Bool → PasteContent
  create : String → Option String → Option (List String) → Bool → Value
  filePasteHandler : List String → String
  isURL : String → Bool
  shortcodeMatches : String → Bool
  valueToFormat : Value → Value
  removeEditorOnlyFormats : Value → Value
  enterTransforms : List EnterTransform
  prefixTransforms : List PrefixTransform

/-- `isShortcode` from the source: tests the text against the shortcode
regexp (the regexp itself comes from `@wordpress/shortcode`). -/
def isShortcode (host : Host) (text : String) : Bool :=
  host.shortcodeMatches text

/-- A keyboard event as the handler reads it. -/
inductive Key where
  | enter
  | backspace
  | delete
  | other
deriving Repr, DecidableEq

structure KeyEvent where
  key : Key
  shiftKey : Bool
  defaultPrevented : Bool
deriving Repr, DecidableEq

/-- What one `_onKeyDown` call did: the host/store calls it made, and
whether it called `event.preventDefault()`. -/
structure KeydownResult where
  signals : List Signal
  prevented : Bool
deriving Repr, DecidableEq

/-- `canSplitAtEnd` from the Enter branch:
`onSplitAtEnd && start === end && end === text.length`. -/
def canSplitAtEnd (caps : Caps) (w : Value) : Bool :=
  caps.onSplitAtEnd && w.start == w.«end» && w.«end» == w.text.length

/-- The unconditional on-enter transform check: when `onReplace` is
present, the first registered enter transform matching the cleaned
value's text fires `onReplace([transform({ content })])` followed by
`__unstableMarkAutomaticChange()`. -/
def enterTransformSignals (host : Host) (caps : Caps) (w : Value) : List Signal :=
  if caps.onReplace then
    match host.enterTransforms.find? (fun t => t.regExpTest (String.mk w.text)) with
    | some t =>
        [Signal.onReplaceSig [t.transform (String.mk w.text)] none none,
         Signal.markAutomaticSig]
    | none => []
  else []

/-- The multiline / non-multiline branch of the Enter handler, evaluated
after the transform check on the cleaned value `w`. -/
def enterBranchSignals (caps : Caps) (w : Value) (event : KeyEvent) : List Signal :=
  let canSplit := caps.onReplace && caps.onSplit
  if caps.multiline then
    if event.shiftKey then
      if !caps.disableLineBreaks then
        [Signal.onChangeSig (insert w (createFromText "\n"))]
      else []
    else if canSplit && isEmptyLine w then
      splitSignals caps w []
    else
      [Signal.onChangeSig (insertLineSeparator w)]
  else
    if event.shiftKey || (!canSplit && !canSplitAtEnd caps w) then
      if !caps.disableLineBreaks then
        [Signal.onChangeSig (insert w (createFromText "\n"))]
      else []
    else if !canSplit && canSplitAtEnd caps w then
      [Signal.onSplitAtEndSig]
    else if canSplit then
      splitSignals caps w []
    else []

/-- `_onKeyDown` from the source's `Element` component: the Enter branch
(transform check, then multiline/split/newline decision) and the
Backspace/Delete branch (boundary guard, then merge and remove). -/
def _onKeyDown (host : Host) (caps : Caps) (hasActiveFormats : Bool)
    (value : Value) (event : KeyEvent) : KeydownResult :=
  if event.defaultPrevented then
    { signals := [], prevented := false }
  else
    match event.key with
    | Key.enter =>
        let w := host.removeEditorOnlyFormats value
        { signals := enterTransformSignals host caps w ++ enterBranchSignals caps w event,
          prevented := true }
    | Key.backspace | Key.delete =>
        let isReverse := event.key == Key.backspace
        -- Only process delete if the key press occurs at an uncollapsed
        -- edge.
        if !isCollapsed value || hasActiveFormats
            || (isReverse && !(value.start == 0))
            || (!isReverse && !(value.«end» == value.text.length)) then
          { signals := [], prevented := false }
        else
          { signals :=
              (if caps.onMerge then [Signal.onMergeSig (!isReverse)] else []) ++
              -- Only handle remove on Backspace.
              (if caps.onRemove && isEmpty value && isReverse then
                [Signal.onRemoveSig (!isReverse)]
              else []),
            prevented := true }
    | Key.other => { signals := [], prevented := false }

/-- Modelled from the spec: `replace(v, /\n+/g, LINE_SEPARATOR)` — every
maximal run of newline characters becomes one multiline-separator
character, carrying the first replaced character's format stack. -/
def collapseNewlinesAux : Bool → List (Char × List Format) → List (Char × List Format)
  | _, [] => []
  | prevNl, (c, f) :: rest =>
      if c = '\n' then
        if prevNl then collapseNewlinesAux true rest
        else (LINE_SEPARATOR, f) :: collapseNewlinesAux true rest
      else (c, f) :: collapseNewlinesAux false rest

/-- Modelled from the spec: the newline-to-separator normalization
applied to a freshly pasted fragment (selection offsets kept as-is; the
fragment's selection is irrelevant to `insert`). -/
def replaceNewlineRuns (v : Value) : Value :=
  let pairs := collapseNewlinesAux false (v.text.zip v.formats)
  { text := pairs.map Prod.fst, formats := pairs.map Prod.snd,
    start := v.start, «end» := v.«end» }

/-- The clipboard parse-mode computation from `onPaste`: `AUTO` when
both `onReplace` and `onSplit` are present, else `INLINE`; forced to
`BLOCKS` from `AUTO` when the value is empty and the plain text looks
like a shortcode, and (from any mode) when URL-embed-on-paste is
enabled, the value is empty, and the trimmed plain text is a URL. -/
def pasteMode (host : Host) (caps : Caps) (value : Value) (plainText : String) :
    Mode :=
  let mode := if caps.onReplace && caps.onSplit then Mode.AUTO else Mode.INLINE
  let mode :=
    if mode == Mode.AUTO && isEmpty value && isShortcode host plainText then
      Mode.BLOCKS
    else mode
  if caps.embedURLOnPaste && isEmpty value
      && host.isURL (String.mk (jsTrim plainText.data)) then
    Mode.BLOCKS
  else mode

/-- The paste payload as the handler receives it. -/
structure PastePayload where
  html : String
  plainText : String
  isInternal : Bool
  files : List String
  activeFormats : List Format

/-- `onPaste` from the source.  The first component records the calls
made into the host (`onChange`, `onReplace`, or the `splitValue`
fallout); the second component is the post-call state of the
caller-supplied value object (the JavaScript only ever mutates the
freshly created fragment, via `addActiveFormats`, so the embedding
threads the caller's value through each branch explicitly). -/
def onPaste (host : Host) (caps : Caps) (p : PastePayload) (value : Value) :
    List Signal × Value :=
  if p.isInternal then
    let pastedValue := host.create p.html caps.multilineTag
      (if caps.multilineTag == some "li" then some ["ul", "ol"] else none)
      caps.preserveWhiteSpace
    let pastedValue := addActiveFormats pastedValue p.activeFormats
    ([Signal.onChangeSig (insert value pastedValue)], value)
  else if caps.pastePlainText then
    ([Signal.onChangeSig (insert value (createFromText p.plainText))], value)
  else if !p.files.isEmpty && p.html == "" then
    -- Only process files if no HTML is present.
    let content := host.pasteHandler (host.filePasteHandler p.files) ""
      Mode.BLOCKS caps.tagName caps.preserveWhiteSpace
    let blocks := content.toBlockList
    if caps.onReplace && isEmpty value then
      ([Signal.onReplaceSig blocks none none], value)
    else
      (splitSignals caps value blocks, value)
  else
    let mode := pasteMode host caps value p.plainText
    let content := host.pasteHandler p.html p.plainText mode
      caps.tagName caps.preserveWhiteSpace
    match content with
    | PasteContent.inline s =>
        let valueToInsert := host.create s none none false
        let valueToInsert := addActiveFormats valueToInsert p.activeFormats
        let valueToInsert :=
          if caps.multilineTag.isSome then replaceNewlineRuns valueToInsert
          else valueToInsert
        ([Signal.onChangeSig (insert value valueToInsert)], value)
    | PasteContent.blockList bs =>
        if 0 < bs.length then
          if caps.onReplace && isEmpty value then
            ([Signal.onReplaceSig bs (some ((bs.length : Int) - 1)) (some (-1))],
             value)
          else
            (splitSignals caps value bs, value)
        else ([], value)

/-- `inputRule(value, valueToFormat)` from the source: the prefix
transform matcher run after a text insertion. -/
def inputRule (host : Host) (caps : Caps) (value : Value) : List Signal :=
  if !caps.onReplace then []
  else
    let start := value.start
    let text := value.text
    let characterBefore := jsSlice text ((start : Int) - 1) (start : Int)
    -- The character right before the caret must be a plain space.
    if characterBefore ≠ [' '] then []
    else
      let trimmedTextBefore := jsTrim (jsSlice text 0 (start : Int))
      match host.prefixTransforms.find?
          (fun t => trimmedTextBefore == t.prefixText) with
      | none => []
      | some t =>
          let content := host.valueToFormat (sliceV value start text.length)
          [Signal.onReplaceSig [t.transform content] none none,
           Signal.markAutomaticSig]

/-! Concrete host environments and inputs used to instantiate the
theorems below. -/

/-- A concrete enter transform that matches any text. -/
def tEnterW : EnterTransform :=
  { regExpTest := fun _ => true, transform := fun s => Block.external s }

/-- A concrete prefix transform registered for the token `*`. -/
def tPrefixW : PrefixTransform :=
  { prefixText := ['*'], transform := fun v => Block.external (String.mk v.text) }

/-- A concrete host environment. -/
def hostW : Host :=
  { pasteHandler := fun _ _ _ _ _ => PasteContent.blockList [],
    create := fun h _ _ _ => createFromText h,
    filePasteHandler := fun _ => "",
    isURL := fun s => s == "https://example.com",
    shortcodeMatches := fun s => s == "[gallery]",
    valueToFormat := id,
    removeEditorOnlyFormats := id,
    enterTransforms := [tEnterW],
    prefixTransforms := [tPrefixW] }

/-- A concrete capability set: replace, split, merge and remove hooks
present; no middle or end-split hook; not multiline. -/
def capsW : Caps :=
  { onReplace := true, onSplit := true, onSplitMiddle := false,
    onSplitAtEnd := false, onMerge := true, onRemove := true,
    multiline := false, disableLineBreaks := false, pastePlainText := false,
    embedURLOnPaste := false, multilineTag := none, tagName := "p",
    preserveWhiteSpace := false }

/-- A one-character unformatted value with the caret collapsed at 0. -/
def c1V : Value := { text := ['a'], formats := [[]], start := 0, «end» := 0 }

/-- C9: `addActiveFormats(value, activeFormats)` prepends the active
formats ahead of any formats already present on every character position
(text and selection untouched), and never deduplicates: applying it
twice with the same non-empty active formats prepends them twice. -/
theorem C9_addActiveFormats_prepends (v : Value) (af : List Format) (h : af ≠ []) :
    (addActiveFormats v af).text = v.text ∧
    (addActiveFormats v af).start = v.start ∧
    (addActiveFormats v af).«end» = v.«end» ∧
    (addActiveFormats v af).formats = v.formats.map (fun fs => af ++ fs) ∧
    (addActiveFormats (addActiveFormats v af) af).formats
      = v.formats.map (fun fs => af ++ (af ++ fs)) := by
  have hlen : af.length ≠ 0 := by simpa using h
  simp [addActiveFormats, hlen, List.map_map, Function.comp]

/-- C9 witness: a two-character value with one pre-existing format,
active format `core/bold`: one application puts it at the front of each
stack, a second application doubles it. -/
theorem C9_witness :
    (addActiveFormats { text := ['a', 'b'], formats := [["x"], []], start := 0, «end» := 0 }
        ["core/bold"]).formats = [["core/bold", "x"], ["core/bold"]] ∧
    (addActiveFormats
        (addActiveFormats
          { text := ['a', 'b'], formats := [["x"], []], start := 0, «end» := 0 }
          ["core/bold"]) ["core/bold"]).formats
      = [["core/bold", "core/bold", "x"], ["core/bold", "core/bold"]] := by
  have h := C9_addActiveFormats_prepends
    { text := ['a', 'b'], formats := [["x"], []], start := 0, «end» := 0 }
    ["core/bold"] (by decide)
  exact ⟨h.2.2.2.1.trans (by decide), h.2.2.2.2.trans (by decide)⟩

/-- C2: the paste handler never mutates the caller-supplied value in
place: the in-place `addActiveFormats` mutation targets only the freshly
created fragment, and the post-call state of the caller's value object
(threaded explicitly through every branch of the embedding) equals the
value passed in. -/
theorem C2_onPaste_preserves_caller_value (host : Host) (caps : Caps)
    (p : PastePayload) (value : Value) :
    (onPaste host caps p value).2 = value := by
  simp only [onPaste]
  repeat' split
  all_goals rfl

/-- C6 counterexample: with the replace capability absent (so the base
mode is `INLINE`), an empty value and shortcode-like plain text, the
code does not escalate to `BLOCKS` — the shortcode escalation only
applies from `AUTO` — refuting the claim's unconditional escalation
rule (a) at this input. -/
theorem C6_counterexample :
    ¬ ( (isEmpty { text := [], formats := [], start := 0, «end» := 0 } = true ∧
          isShortcode hostW "[gallery]" = true) →
        pasteMode hostW { capsW with onReplace := false }
          { text := [], formats := [], start := 0, «end» := 0 } "[gallery]"
          = Mode.BLOCKS ) := by decide

/-- C6 (amended): the parse mode is `AUTO` when both replace and split
capabilities are present and `INLINE` otherwise; it is `BLOCKS` exactly
when (a) both capabilities are present, the value is empty and the plain
text matches the shortcode pattern, or (b) URL-embed-on-paste is
enabled, the value is empty, and the trimmed plain text is a valid
URL. -/
theorem C6_pasteMode_characterization (host : Host) (caps : Caps) (value : Value)
    (pt : String) :
    (pasteMode host caps value pt = Mode.BLOCKS ↔
      ((caps.onReplace && caps.onSplit) = true ∧ isEmpty value = true ∧
        isShortcode host pt = true) ∨
      (caps.embedURLOnPaste = true ∧ isEmpty value = true ∧
        host.isURL (String.mk (jsTrim pt.data)) = true)) ∧
    (pasteMode host caps value pt ≠ Mode.BLOCKS →
      pasteMode host caps value pt
        = if caps.onReplace && caps.onSplit then Mode.AUTO else Mode.INLINE) := by
  unfold pasteMode
  by_cases hr : caps.onReplace = true <;>
    by_cases hs : caps.onSplit = true <;>
    by_cases h2 : isEmpty value = true <;>
    by_cases h3 : isShortcode host pt = true <;>
    by_cases h4 : caps.embedURLOnPaste = true <;>
    by_cases h5 : host.isURL (String.mk (jsTrim pt.data)) = true <;>
    simp_all

/-- C1 counterexample: splitting the value `"a"` with the caret
collapsed at offset 0 and no pasted blocks: the before unit would be
empty and there is no externally pasted content, yet the produced block
sequence does contain the (empty) before unit — the code omits an empty
before unit exactly when pasted blocks exist, not when they are
absent. -/
theorem C1_counterexample :
    ¬ ( (beforeBlock capsW c1V ∉
          ((splitValue capsW c1V []).map SplitResult.blocks).getD [])
        ↔ (isEmpty (split c1V).1 = true ∧ ([] : List Block) = []) ) := by decide

/-- C1 (amended): in the `splitValue` result the before unit is omitted
exactly when it would be empty and there IS externally pasted content;
the after unit is omitted, with pasted blocks, when it is empty, and
without pasted blocks only when a middle hook exists and it is empty. -/
theorem C1_splitValue_block_omission (caps : Caps) (v : Value) (pb : List Block)
    (h : caps.onReplace = true ∧ caps.onSplit = true) :
    (splitValue caps v pb).map SplitResult.blocks = some (
      (if pb.isEmpty = false ∧ isEmpty (split v).1 = true then []
       else [beforeBlock caps v]) ++
      (if pb.isEmpty = false then pb
       else if caps.onSplitMiddle = true then [Block.middleBlock] else []) ++
      (if (if pb.isEmpty = false then isEmpty (split v).2 = true
           else caps.onSplitMiddle = true ∧ isEmpty (split v).2 = true) then []
       else [afterBlock caps v])) := by
  obtain ⟨h1, h2⟩ := h
  unfold splitValue
  by_cases hp : pb.isEmpty = true <;>
    by_cases hb : isEmpty (split v).1 = true <;>
    by_cases ha : isEmpty (split v).2 = true <;>
    by_cases hm : caps.onSplitMiddle = true <;>
    simp_all

/-- C1 witness: the amended omission rule at the concrete input of the
counterexample — no pasted blocks, empty before unit: both split halves
are produced. -/
theorem C1_witness :
    (splitValue capsW c1V []).map SplitResult.blocks
      = some [Block.fromSplit "" false, Block.fromSplit "a" true] := by
  have h := C1_splitValue_block_omission capsW c1V [] ⟨rfl, rfl⟩
  rw [h]
  decide

/-- C3: a remove signal is emitted only for Backspace.  Delete never
produces a remove signal, whatever the value and capabilities; Backspace
on a collapsed, unformatted value with the caret at offset 0, with the
remove capability and an empty value, produces the backward remove
signal after the merge signal (when the merge capability exists). -/
theorem C3_remove_only_on_backspace (host : Host) (caps : Caps) (haf : Bool)
    (value : Value) (ev : KeyEvent) :
    (ev.key = Key.delete → ∀ b : Bool,
      Signal.onRemoveSig b ∉ (_onKeyDown host caps haf value ev).signals) ∧
    (ev.key = Key.backspace → ev.defaultPrevented = false →
      isCollapsed value = true → haf = false → value.start = 0 →
      caps.onRemove = true → isEmpty value = true →
      (_onKeyDown host caps haf value ev).signals
        = (if caps.onMerge = true then [Signal.onMergeSig false] else []) ++
          [Signal.onRemoveSig false]) := by
  obtain ⟨k, sh, dp⟩ := ev
  constructor
  · intro hk b
    dsimp only at hk
    subst hk
    unfold _onKeyDown
    by_cases hdp : dp = true <;>
      by_cases hg : (!isCollapsed value || haf
          || ((Key.delete == Key.backspace) && !(value.start == 0))
          || (!(Key.delete == Key.backspace) && !(value.«end» == value.text.length)))
          = true <;>
      by_cases hm : caps.onMerge = true <;>
      simp_all [_onKeyDown]
  · intro hk hdp hc hhaf hs hr he
    dsimp only at hk hdp
    subst hk
    subst hdp
    unfold _onKeyDown
    by_cases hm : caps.onMerge = true <;> simp_all

/-- C4: for every Backspace or Delete event (not already default-
prevented) the handler is a no-op — no signal, event not intercepted —
unless the selection is collapsed, no formatting is active, and the
caret is at the boundary relevant to the key; when those hold and the
merge capability exists, exactly one merge signal is emitted, backward
for Backspace and forward for Delete. -/
theorem C4_backspace_delete_boundary_guard (host : Host) (caps : Caps)
    (haf : Bool) (value : Value) (ev : KeyEvent)
    (hk : ev.key = Key.backspace ∨ ev.key = Key.delete)
    (hdp : ev.defaultPrevented = false) :
    (¬ (isCollapsed value = true ∧ haf = false ∧
          ((ev.key = Key.backspace ∧ value.start = 0) ∨
           (ev.key = Key.delete ∧ value.«end» = value.text.length))) →
      _onKeyDown host caps haf value ev = { signals := [], prevented := false }) ∧
    ((isCollapsed value = true ∧ haf = false ∧
          ((ev.key = Key.backspace ∧ value.start = 0) ∨
           (ev.key = Key.delete ∧ value.«end» = value.text.length))) →
      caps.onMerge = true →
      ((_onKeyDown host caps haf value ev).signals.filter
          (fun s => match s with | Signal.onMergeSig _ => true | _ => false))
        = [Signal.onMergeSig (ev.key == Key.delete)]) := by
  obtain ⟨k, sh, dp⟩ := ev
  dsimp only at hk hdp
  subst hdp
  rcases hk with hk | hk <;> subst hk <;>
    unfold _onKeyDown <;>
    constructor
  · intro hno
    by_cases hc : isCollapsed value = true <;>
      by_cases hhaf : haf = true <;>
      by_cases hs : value.start = 0 <;>
      simp_all
  · rintro ⟨hc, hhaf, hb⟩ hm
    rcases hb with ⟨-, hs⟩ | ⟨hbad, -⟩
    · by_cases hrem : (caps.onRemove && isEmpty value) = true <;> simp_all
    · exact absurd hbad (by simp)
  · intro hno
    by_cases hc : isCollapsed value = true <;>
      by_cases hhaf : haf = true <;>
      by_cases hs : value.«end» = value.text.length <;>
      simp_all
  · rintro ⟨hc, hhaf, hb⟩ hm
    rcases hb with ⟨hbad, -⟩ | ⟨-, hs⟩
    · exact absurd hbad (by simp)
    · by_cases hrem : (caps.onRemove && isEmpty value) = true <;> simp_all

/-- C5: on every Enter event with the replace capability, the default
key behavior is suppressed (`preventDefault`), and a matching on-enter
transform emits its full-replace signal and the automatic-change mark
first, with the multiline/split branch signals still following — the
transform check runs unconditionally before those branches. -/
theorem C5_enter_transform_precedence (host : Host) (caps : Caps) (haf : Bool)
    (value : Value) (ev : KeyEvent)
    (hk : ev.key = Key.enter) (hdp : ev.defaultPrevented = false)
    (hr : caps.onReplace = true) :
    (_onKeyDown host caps haf value ev).prevented = true ∧
    ∀ t, host.enterTransforms.find?
        (fun tr => tr.regExpTest (String.mk (host.removeEditorOnlyFormats value).text))
        = some t →
      (_onKeyDown host caps haf value ev).signals
        = Signal.onReplaceSig
            [t.transform (String.mk (host.removeEditorOnlyFormats value).text)]
            none none
          :: Signal.markAutomaticSig
          :: enterBranchSignals caps (host.removeEditorOnlyFormats value) ev := by
  obtain ⟨k, sh, dp⟩ := ev
  dsimp only at hk hdp
  subst hk
  subst hdp
  unfold _onKeyDown
  constructor
  · simp
  · intro t ht
    simp [enterTransformSignals, hr, ht]

/-- C5 witness: Enter on `"a"` with caret at 0, an always-matching
enter transform, and both replace and split capabilities: the transform
replace and automatic mark fire, and the same event still also produces
the split's replace signal afterwards; default behavior suppressed. -/
theorem C5_witness :
    (_onKeyDown hostW capsW false c1V
        { key := Key.enter, shiftKey := false, defaultPrevented := false }).prevented
      = true ∧
    (_onKeyDown hostW capsW false c1V
        { key := Key.enter, shiftKey := false, defaultPrevented := false }).signals
      = [Signal.onReplaceSig [Block.external "a"] none none,
         Signal.markAutomaticSig,
         Signal.onReplaceSig [Block.fromSplit "" false, Block.fromSplit "a" true]
           (some 1) (some 0)] := by
  have h := C5_enter_transform_precedence hostW capsW false c1V
      { key := Key.enter, shiftKey := false, defaultPrevented := false } rfl rfl rfl
  refine ⟨h.1, ?_⟩
  rw [h.2 tEnterW rfl]
  decide

/-- C7: Enter in non-multiline mode: `canSplitAtEnd` holds exactly when
the end-of-unit hook exists, the caret is collapsed and at end-of-text;
Shift, or the absence of both the split capability and `canSplitAtEnd`,
inserts a literal newline unless line breaks are disabled; without the
split capability but with `canSplitAtEnd`, the end-of-unit hook fires;
with the split capability, block-splitting runs. -/
theorem C7_enter_non_multiline (host : Host) (caps : Caps) (haf : Bool)
    (value w : Value) (ev : KeyEvent)
    (hk : ev.key = Key.enter) (hdp : ev.defaultPrevented = false)
    (hml : caps.multiline = false)
    (hw : host.removeEditorOnlyFormats value = w) :
    (canSplitAtEnd caps w
      = (caps.onSplitAtEnd && isCollapsed w && (w.«end» == w.text.length))) ∧
    (ev.shiftKey = true ∨
        ((caps.onReplace && caps.onSplit) = false ∧ canSplitAtEnd caps w = false) →
      (_onKeyDown host caps haf value ev).signals
        = enterTransformSignals host caps w ++
          (if caps.disableLineBreaks = true then []
           else [Signal.onChangeSig (insert w (createFromText "\n"))])) ∧
    (ev.shiftKey = false → (caps.onReplace && caps.onSplit) = false →
      canSplitAtEnd caps w = true →
      (_onKeyDown host caps haf value ev).signals
        = enterTransformSignals host caps w ++ [Signal.onSplitAtEndSig]) ∧
    (ev.shiftKey = false → (caps.onReplace && caps.onSplit) = true →
      (_onKeyDown host caps haf value ev).signals
        = enterTransformSignals host caps w ++ splitSignals caps w []) := by
  obtain ⟨k, sh, dp⟩ := ev
  dsimp only at hk hdp
  subst hk
  subst hdp
  subst hw
  refine ⟨rfl, ?_, ?_, ?_⟩
  · intro hcase
    unfold _onKeyDown enterBranchSignals
    rcases hcase with hsh | ⟨hcs, hce⟩ <;>
      by_cases hd : caps.disableLineBreaks = true <;>
      simp_all
  · intro hsh hcs hce
    dsimp only at hsh
    subst hsh
    unfold _onKeyDown enterBranchSignals
    simp_all
  · intro hsh hcs
    dsimp only at hsh
    subst hsh
    unfold _onKeyDown enterBranchSignals
    simp_all

/-- C7 witness: Enter without Shift, replace capability absent (so no
split capability), end-of-unit hook present, caret collapsed at the end
of `"a"`: exactly the end-of-unit hook fires. -/
theorem C7_witness :
    (_onKeyDown hostW { capsW with onReplace := false, onSplitAtEnd := true } false
        { text := ['a'], formats := [[]], start := 1, «end» := 1 }
        { key := Key.enter, shiftKey := false, defaultPrevented := false }).signals
      = [Signal.onSplitAtEndSig] := by
  have h := C7_enter_non_multiline hostW
      { capsW with onReplace := false, onSplitAtEnd := true } false
      { text := ['a'], formats := [[]], start := 1, «end» := 1 }
      { text := ['a'], formats := [[]], start := 1, «end» := 1 }
      { key := Key.enter, shiftKey := false, defaultPrevented := false }
      rfl rfl rfl rfl
  rw [h.2.2.1 rfl rfl (by decide)]
  decide

/-- C3 witness: on the empty collapsed value with merge and remove
capabilities, Delete emits no remove signal (neither direction), while
Backspace emits the merge signal followed by the backward remove
signal. -/
theorem C3_witness :
    (Signal.onRemoveSig false ∉ (_onKeyDown hostW capsW false
        { text := [], formats := [], start := 0, «end» := 0 }
        { key := Key.delete, shiftKey := false, defaultPrevented := false }).signals) ∧
    (Signal.onRemoveSig true ∉ (_onKeyDown hostW capsW false
        { text := [], formats := [], start := 0, «end» := 0 }
        { key := Key.delete, shiftKey := false, defaultPrevented := false }).signals) ∧
    (_onKeyDown hostW capsW false
        { text := [], formats := [], start := 0, «end» := 0 }
        { key := Key.backspace, shiftKey := false, defaultPrevented := false }).signals
      = [Signal.onMergeSig false, Signal.onRemoveSig false] := by
  have hd := C3_remove_only_on_backspace hostW capsW false
      { text := [], formats := [], start := 0, «end» := 0 }
      { key := Key.delete, shiftKey := false, defaultPrevented := false }
  have hb := C3_remove_only_on_backspace hostW capsW false
      { text := [], formats := [], start := 0, «end» := 0 }
      { key := Key.backspace, shiftKey := false, defaultPrevented := false }
  refine ⟨hd.1 rfl false, hd.1 rfl true, ?_⟩
  have h := hb.2 rfl rfl (by decide) rfl rfl rfl (by decide)
  simpa using h

/-- C4 witness: Backspace on a non-collapsed selection is a no-op (not
intercepted); Backspace at offset 0 on a collapsed unformatted value
with merge capability produces exactly one merge signal, backward. -/
theorem C4_witness :
    _onKeyDown hostW capsW false
        { text := ['a'], formats := [[]], start := 0, «end» := 1 }
        { key := Key.backspace, shiftKey := false, defaultPrevented := false }
      = { signals := [], prevented := false } ∧
    ((_onKeyDown hostW capsW false c1V
        { key := Key.backspace, shiftKey := false, defaultPrevented := false }).signals.filter
        (fun s => match s with | Signal.onMergeSig _ => true | _ => false))
      = [Signal.onMergeSig false] := by
  have h1 := C4_backspace_delete_boundary_guard hostW capsW false
      { text := ['a'], formats := [[]], start := 0, «end» := 1 }
      { key := Key.backspace, shiftKey := false, defaultPrevented := false }
      (Or.inl rfl) rfl
  have h2 := C4_backspace_delete_boundary_guard hostW capsW false c1V
      { key := Key.backspace, shiftKey := false, defaultPrevented := false }
      (Or.inl rfl) rfl
  refine ⟨h1.1 ?_, ?_⟩
  · intro hcon
    exact absurd hcon.1 (by decide)
  · have h := h2.2 ⟨by decide, rfl, Or.inl ⟨rfl, rfl⟩⟩ rfl
    simpa using h

/-- C8: the prefix matcher fires only when the character immediately
before the caret is exactly one literal space; it takes the first
registered prefix transform whose prefix equals the trimmed text before
the caret, builds its content from the slice between the caret and
end-of-text, and signals a single-block full replace marked automatic;
without the replace capability or without a match it is a no-op. -/
theorem C8_inputRule_prefix_match (host : Host) (caps : Caps) (value : Value) :
    (caps.onReplace = false → inputRule host caps value = []) ∧
    (jsSlice value.text ((value.start : Int) - 1) (value.start : Int) ≠ [' '] →
      inputRule host caps value = []) ∧
    (caps.onReplace = true →
      host.prefixTransforms.find?
          (fun t => jsTrim (jsSlice value.text 0 (value.start : Int)) == t.prefixText)
        = none →
      inputRule host caps value = []) ∧
    (∀ t, caps.onReplace = true →
      jsSlice value.text ((value.start : Int) - 1) (value.start : Int) = [' '] →
      host.prefixTransforms.find?
          (fun t2 => jsTrim (jsSlice value.text 0 (value.start : Int)) == t2.prefixText)
        = some t →
      inputRule host caps value
        = [Signal.onReplaceSig
            [t.transform (host.valueToFormat (sliceV value value.start value.text.length))]
            none none,
           Signal.markAutomaticSig]) := by
  refine ⟨?_, ?_, ?_, ?_⟩
  · intro hr
    simp [inputRule, hr]
  · intro hcb
    unfold inputRule
    by_cases hr : caps.onReplace = true <;> simp_all
  · intro hr hf
    simp only [inputRule, hr]
    rw [hf]
    repeat' split
    all_goals simp_all
  · intro t hr hcb hf
    unfold inputRule
    simp [hr, hcb, hf]

/-- C8 witness: value `"* x"` with the caret at offset 2 (character
before the caret is one space) and a prefix transform registered for
`*`: a full replace with the single block built from `"x"` plus the
automatic mark; with a tab in place of the space, a no-op. -/
theorem C8_witness :
    inputRule hostW capsW
        { text := ['*', ' ', 'x'], formats := [[], [], []], start := 2, «end» := 2 }
      = [Signal.onReplaceSig [Block.external "x"] none none,
         Signal.markAutomaticSig] ∧
    inputRule hostW capsW
        { text := ['*', '\t', 'x'], formats := [[], [], []], start := 2, «end» := 2 }
      = [] := by
  have h := C8_inputRule_prefix_match hostW capsW
      { text := ['*', ' ', 'x'], formats := [[], [], []], start := 2, «end» := 2 }
  have h2 := C8_inputRule_prefix_match hostW capsW
      { text := ['*', '\t', 'x'], formats := [[], [], []], start := 2, «end» := 2 }
  refine ⟨?_, h2.2.1 (by decide)⟩
  have hm := h.2.2.2 tPrefixW rfl (by decide) rfl
  rw [hm]
  decide

/-- C10: when a general paste parses to a non-empty block list but is
routed to block-splitting (the value is non-empty or replace is
unavailable), and the host lacks the replace or the split capability,
`splitValue` returns early: no signal reaches the host, the pasted
blocks are discarded, and the caller's value is unchanged. -/
theorem C10_paste_blocks_dropped_without_caps (host : Host) (caps : Caps)
    (p : PastePayload) (value : Value) (bs : List Block)
    (hint : p.isInternal = false) (hppt : caps.pastePlainText = false)
    (hfile : ¬ (p.files ≠ [] ∧ p.html = ""))
    (hparse : host.pasteHandler p.html p.plainText
        (pasteMode host caps value p.plainText) caps.tagName caps.preserveWhiteSpace
      = PasteContent.blockList bs)
    (hbs : bs ≠ [])
    (hroute : ¬ (caps.onReplace = true ∧ isEmpty value = true))
    (hcaps : caps.onReplace = false ∨ caps.onSplit = false) :
    onPaste host caps p value = ([], value) := by
  have hfile2 : (!p.files.isEmpty && p.html == "") = false := by
    by_cases hf1 : p.files.isEmpty = true <;>
      by_cases hf2 : p.html = "" <;>
      simp_all
  have hroute2 : (caps.onReplace && isEmpty value) = false := by
    by_cases h1 : caps.onReplace = true <;>
      by_cases h2 : isEmpty value = true <;>
      simp_all
  have hlen : 0 < bs.length := List.length_pos.mpr hbs
  have hsplit : splitSignals caps value bs = [] := by
    rcases hcaps with hc | hc <;> simp [splitSignals, splitValue, hc]
  simp [onPaste, hint, hppt, hfile2, hparse, hlen, hroute2, hsplit]

/-- A host whose clipboard parser produces one block payload. -/
def hostPB : Host :=
  { hostW with
    pasteHandler := fun _ _ _ _ _ => PasteContent.blockList [Block.external "pb"] }

/-- C10 witness: pasting onto the non-empty value `"a"` with the split
capability absent: the parsed block is dropped, no signal is emitted,
and the caller's value is returned unchanged. -/
theorem C10_witness :
    onPaste hostPB { capsW with onSplit := false }
        { html := "<p>x</p>", plainText := "x", isInternal := false, files := [],
          activeFormats := [] } c1V
      = ([], c1V) :=
  C10_paste_blocks_dropped_without_caps hostPB { capsW with onSplit := false }
    { html := "<p>x</p>", plainText := "x", isInternal := false, files := [],
      activeFormats := [] } c1V [Block.external "pb"]
    rfl rfl (by simp) rfl (by decide) (by decide) (Or.inr rfl)

end BlockEditor
